import Mathlib

/-
Verification of the TaskMaster Pro task inference and priority scheduling
engine. The definitions below are a shallow embedding of the TypeScript
services (SchedulingService and GeminiService) together with the shared data
model. Conventions of the embedding:

- timestamps (JavaScript Date values) are integers counting milliseconds
  since the epoch; the wall clock read by a Date constructor inside a
  function body is passed explicitly as a parameter named now;
- JavaScript numbers are rationals, so exact arithmetic replaces IEEE
  floating point;
- optional or possibly-undefined values are Option; the JavaScript
  truthiness test on a number (0 is falsy) is modelled explicitly where the
  source relies on it;
- the random task identifiers built from Date.now and Math.random are
  supplied by an identifier parameter, and the calendar construction of a
  17:00 end-of-day Date for "today" and "tomorrow" is supplied as two
  timestamp parameters, since time-zone dependent calendar arithmetic is
  outside the embedding.
-/

namespace TaskMaster

/-- Qualitative certainty attached to an inferred field value. -/
inductive InferenceConfidence where
  | low
  | medium
  | high
deriving DecidableEq, Repr

/-- One inference entry: a value, a confidence label and a rationale. -/
structure Inference (α : Type) where
  value : α
  confidence : InferenceConfidence
  rationale : String
deriving DecidableEq, Repr

/-- The inferences map of an InferredTask. The TypeScript interface has
exactly the four optional keys priority, duration, deadline and category.
The deadline entry value is itself optional because the response validator
can construct an entry whose value is undefined at runtime. -/
structure Inferences where
  priority : Option (Inference ℚ)
  duration : Option (Inference ℚ)
  deadline : Option (Inference (Option ℤ))
  category : Option (Inference String)
deriving DecidableEq, Repr

/-- A structured task as supplied by the user or produced by parsing. -/
structure StructuredTask where
  id : String
  title : String
  deadline : Option ℤ
  priority : Option ℚ
  duration : Option ℚ
  dependencies : Option (List String)
  notes : Option String
  category : Option String
  splittable : Option Bool
deriving DecidableEq, Repr

/-- A structured task enriched with an inferences map and conditional
hints. -/
structure InferredTask extends StructuredTask where
  inferences : Inferences
  conditionalHints : List String
deriving DecidableEq, Repr

/-- Composite priority score. -/
structure PriorityScore where
  urgency : ℚ
  importance : ℚ
  effortFit : ℚ
  dependencyReady : ℚ
  slackRisk : ℚ
  uncertaintyPenalty : ℚ
  total : ℚ
deriving DecidableEq, Repr

/-- An immovable calendar block from the planning settings. -/
structure HardCommitment where
  id : String
  title : String
  startTime : ℤ
  endTime : ℤ
  description : Option String
deriving DecidableEq, Repr

/-- External planning configuration, read but not yet used by the
scheduling algorithm. -/
structure PlanningSettings where
  workingHoursStart : String
  workingHoursEnd : String
  weekendsEnabled : Bool
  focusBlockLength : ℚ
  breakBuffer : ℚ
  hardCommitments : List HardCommitment
deriving DecidableEq, Repr

/-- Explainability bundle attached to a planned task. The factors record is
kept as an association list in insertion order. -/
structure Explainability where
  factors : List (String × ℚ)
  assumptions : List String
  conditionalGuidance : List String
deriving DecidableEq, Repr

/-- A task paired with its score, scheduling reason and explainability. -/
structure PlannedTask where
  task : InferredTask
  timeWindow : Option (ℤ × ℤ)
  priorityScore : PriorityScore
  schedulingReason : String
  explainability : Explainability
deriving DecidableEq, Repr

/-- The three sections of a daily plan. -/
structure PlanSections where
  now : List PlannedTask
  next : List PlannedTask
  later : List PlannedTask
deriving DecidableEq, Repr

/-- Metadata of a daily plan. -/
structure PlanMetadata where
  totalTasks : ℕ
  totalDuration : ℚ
  planningDate : ℤ
deriving DecidableEq, Repr

/-- The terminal plan artifact for one date. -/
structure DailyPlan where
  id : String
  date : ℤ
  sections : PlanSections
  ambiguousTasks : List String
  overdueTasks : List PlannedTask
  metadata : PlanMetadata
deriving DecidableEq, Repr

/-- Result of parsing freeform text. -/
structure FreeformParseResult where
  extractedTasks : List InferredTask
  ambiguousLines : List String
  parsingErrors : List String
  confidence : InferenceConfidence
deriving DecidableEq, Repr

/-! ### SchedulingService.calculatePriorityScore -/

/-- Penalty contributed by one confidence label: 0.1 for low, 0.05 for
medium, 0 for high. -/
def pen (c : InferenceConfidence) : ℚ :=
  match c with
  | .low => 1/10
  | .medium => 1/20
  | .high => 0

/-- Penalty contributed by one optional inference entry. -/
def confPenalty {α : Type} (o : Option (Inference α)) : ℚ :=
  match o with
  | none => 0
  | some i => pen i.confidence

/-- The urgency factor: deadline proximity buckets, 0.5 when no deadline. -/
def urgencyOf (task : InferredTask) (now : ℤ) : ℚ :=
  match task.deadline with
  | some dl =>
    let hoursToDeadline : ℚ := ((dl - now : ℤ) : ℚ) / (1000 * 60 * 60)
    if hoursToDeadline < 4 then 1
    else if hoursToDeadline < 24 then 9/10
    else if hoursToDeadline < 72 then 7/10
    else 3/10
  | none => 1/2

/-- The importance factor: priority divided by 5 when the priority field is
truthy, 0.6 otherwise (a numeric 0 is falsy in the source). -/
def importanceOf (task : InferredTask) : ℚ :=
  match task.priority with
  | some p => if p = 0 then 3/5 else p / 5
  | none => 3/5

/-- Sum of the penalties of the populated inference entries. -/
def penaltyOf (task : InferredTask) : ℚ :=
  confPenalty task.inferences.priority + confPenalty task.inferences.duration +
    confPenalty task.inferences.deadline + confPenalty task.inferences.category

/-- SchedulingService.calculatePriorityScore: the five weighted factors and
the uncertainty penalty, with the total clamped below by 0. -/
def calculatePriorityScore (task : InferredTask) (_settings : PlanningSettings)
    (_planDate : ℤ) (now : ℤ) : PriorityScore :=
  let urgency := urgencyOf task now
  let importance := importanceOf task
  let effortFit : ℚ := 1
  let dependencyReady : ℚ := 1
  let slackRisk : ℚ := 1
  let uncertaintyPenalty := penaltyOf task
  let baseScore := urgency * (3/10) + importance * (1/4) + effortFit * (3/20) +
    dependencyReady * (3/20) + slackRisk * (3/20)
  let total := max 0 (baseScore - uncertaintyPenalty)
  ⟨urgency, importance, effortFit, dependencyReady, slackRisk, uncertaintyPenalty, total⟩

/-! ### SchedulingService reasons, assumptions and planned tasks -/

/-- SchedulingService.generateSchedulingReason. -/
def generateSchedulingReason (_task : InferredTask) (score : PriorityScore) : String :=
  let reasons : List String :=
    (if score.urgency > 8/10 then ["urgent deadline"]
     else if score.urgency > 3/5 then ["approaching deadline"] else []) ++
    (if score.importance > 8/10 then ["high priority"]
     else if score.importance < 2/5 then ["lower priority"] else []) ++
    (if score.uncertaintyPenalty > 1/10 then ["adjusted for inference uncertainty"] else [])
  if reasons.isEmpty then "Scheduled based on availability."
  else "Scheduled due to " ++ String.intercalate ", " reasons ++ "."

/-- Assumption line for one inference entry: emitted when the confidence is
low or medium. -/
def assumptionOf {α : Type} (field : String) (o : Option (Inference α)) : List String :=
  match o with
  | none => []
  | some i =>
    match i.confidence with
    | .low => [field ++ ": " ++ i.rationale]
    | .medium => [field ++ ": " ++ i.rationale]
    | .high => []

/-- SchedulingService.extractAssumptions, iterating the inference entries in
the field order of the inferences record. -/
def extractAssumptions (task : InferredTask) : List String :=
  assumptionOf "priority" task.inferences.priority ++
    assumptionOf "duration" task.inferences.duration ++
    assumptionOf "deadline" task.inferences.deadline ++
    assumptionOf "category" task.inferences.category

/-- The planned task built for one scored task inside
SchedulingService.scheduleTasks. -/
def mkPlannedTask (task : InferredTask) (score : PriorityScore) : PlannedTask :=
  { task := task
    timeWindow := none
    priorityScore := score
    schedulingReason := generateSchedulingReason task score
    explainability :=
      { factors := [("urgency", score.urgency), ("importance", score.importance),
          ("effortFit", score.effortFit), ("dependencyReady", score.dependencyReady),
          ("slackRisk", score.slackRisk), ("uncertaintyPenalty", score.uncertaintyPenalty)]
        assumptions := extractAssumptions task
        conditionalGuidance := task.conditionalHints } }

/-- SchedulingService.scheduleTasks: wraps every scored task into a planned
task, preserving order. -/
def scheduleTasks (scoredTasks : List (InferredTask × PriorityScore))
    (_settings : PlanningSettings) (_planDate : ℤ) : List PlannedTask :=
  scoredTasks.map fun p => mkPlannedTask p.1 p.2

/-! ### SchedulingService categorization, overdue detection, plan assembly -/

/-- The loop body of SchedulingService.categorizeTasks: append the planned
task to the section its score selects. -/
def categorizeStep (sections : PlanSections) (pt : PlannedTask) : PlanSections :=
  if pt.priorityScore.urgency > 8/10 ∨ pt.priorityScore.total > 8/10 then
    { sections with now := sections.now ++ [pt] }
  else if pt.priorityScore.total > 1/2 then
    { sections with next := sections.next ++ [pt] }
  else
    { sections with later := sections.later ++ [pt] }

/-- SchedulingService.categorizeTasks: each planned task is appended to
exactly one of the three sections according to its score. -/
def categorizeTasks (plannedTasks : List PlannedTask) (_planDate : ℤ)
    (_settings : PlanningSettings) : PlanSections :=
  plannedTasks.foldl categorizeStep ⟨[], [], []⟩

/-- The overdue test of SchedulingService.identifyOverdueTasks: the deadline
is present and strictly before the current instant. -/
def isOverdue (now : ℤ) (pt : PlannedTask) : Bool :=
  match pt.task.deadline with
  | some dl => decide (dl < now)
  | none => false

/-- SchedulingService.identifyOverdueTasks. -/
def identifyOverdueTasks (plannedTasks : List PlannedTask) (_planDate : ℤ)
    (now : ℤ) : List PlannedTask :=
  plannedTasks.filter (isOverdue now)

/-- The numeric default operator x || d of the source: a missing or zero
number falls back to the default. -/
def numOr (o : Option ℚ) (d : ℚ) : ℚ :=
  match o with
  | none => d
  | some x => if x = 0 then d else x

/-- The scored task list built at the top of generateDailyPlan. -/
def scoredTasksOf (tasks : List InferredTask) (settings : PlanningSettings)
    (planDate : ℤ) (now : ℤ) : List (InferredTask × PriorityScore) :=
  tasks.map fun task => (task, calculatePriorityScore task settings planDate now)

/-- The scored tasks sorted by descending total score; the source comparator
b.score.total - a.score.total with the stable built-in sort is modelled by a
stable merge sort on the same key. -/
def sortedScoredTasksOf (tasks : List InferredTask) (settings : PlanningSettings)
    (planDate : ℤ) (now : ℤ) : List (InferredTask × PriorityScore) :=
  (scoredTasksOf tasks settings planDate now).mergeSort fun a b =>
    decide (b.2.total ≤ a.2.total)

/-- The planned task list of one planning run. -/
def plannedTasksOf (tasks : List InferredTask) (settings : PlanningSettings)
    (planDate : ℤ) (now : ℤ) : List PlannedTask :=
  scheduleTasks (sortedScoredTasksOf tasks settings planDate now) settings planDate

/-- SchedulingService.generateDailyPlan. -/
def generateDailyPlan (tasks : List InferredTask) (settings : PlanningSettings)
    (planDate : ℤ) (now : ℤ) : DailyPlan :=
  let plannedTasks := plannedTasksOf tasks settings planDate now
  let sections := categorizeTasks plannedTasks planDate settings
  let overdueTasks := identifyOverdueTasks plannedTasks planDate now
  { id := "plan-" ++ toString planDate ++ "-" ++ toString now
    date := planDate
    sections := sections
    ambiguousTasks := []
    overdueTasks := overdueTasks
    metadata :=
      { totalTasks := tasks.length
        totalDuration := tasks.foldl (fun s t => s + numOr t.duration 0) 0
        planningDate := now } }

/-! ### Character-level utilities for the local heuristic parser

The regular expressions of GeminiService are specialized to their concrete
patterns: alternations of literal words matched case-insensitively, the
duration pattern, the deadline pattern, and the whitespace class. -/

/-- The characters of the regex whitespace class relevant here. -/
def isWsChar (c : Char) : Bool :=
  c == ' ' || c == '\t' || c == '\n' || c == '\r' || c == '\x0b' || c == '\x0c'

/-- Word characters of the regex class backslash-w. -/
def isWordChar (c : Char) : Bool :=
  c.isAlphanum || c == '_'

/-- Case-insensitive literal match at the head of the text; the pattern is
given in lower case. Returns the remaining text on success. -/
def matchLitCI : List Char → List Char → Option (List Char)
  | [], s => some s
  | _ :: _, [] => none
  | p :: ps, c :: cs => if p == c.toLower then matchLitCI ps cs else none

/-- Does the lower-cased pattern occur anywhere in the text
(case-insensitively)? -/
def occursCI (pat : List Char) : List Char → Bool
  | [] => pat.isEmpty
  | c :: cs => (matchLitCI pat (c :: cs)).isSome || occursCI pat cs

/-- Case-insensitive containment test on strings, modelling a regex test of
an alternation of the given literal words. -/
def testCI (line : String) (pats : List String) : Bool :=
  pats.any fun p => occursCI p.toList line.toList

/-- Greedy run of two or more exclamation marks at the head of the text. -/
def matchBangs : List Char → Option (List Char)
  | '!' :: '!' :: rest => some (rest.dropWhile (· == '!'))
  | _ => none

/-- Head match of one alternative of the title-cleaning keyword pattern
urgent, asap, critical, important, high, low, minor or two-plus bangs. -/
def matchKwClean (s : List Char) : Option (List Char) :=
  matchLitCI "urgent".toList s <|> matchLitCI "asap".toList s <|>
    matchLitCI "critical".toList s <|> matchLitCI "important".toList s <|>
    matchLitCI "high".toList s <|> matchLitCI "low".toList s <|>
    matchLitCI "minor".toList s <|> matchBangs s

/-- Maximal run of decimal digits at the head of the text. -/
def takeDigits : List Char → List Char × List Char
  | [] => ([], [])
  | c :: cs =>
    if c.isDigit then
      let p := takeDigits cs
      (c :: p.1, p.2)
    else ([], c :: cs)

/-- Numeric value of a digit run, as parseInt would produce. -/
def digitsVal (acc : ℕ) : List Char → ℕ
  | [] => acc
  | c :: cs => digitsVal (acc * 10 + (c.toNat - 48)) cs

/-- Head match of the duration unit alternation hour, hr, min, minute (in
source order), followed by an optional letter s. Returns whether the unit is
an hour unit and the remaining text. -/
def matchUnit (s : List Char) : Option (Bool × List Char) :=
  match matchLitCI "hour".toList s with
  | some r => some (true, r)
  | none =>
    match matchLitCI "hr".toList s with
    | some r => some (true, r)
    | none =>
      match matchLitCI "min".toList s with
      | some r => some (false, r)
      | none =>
        match matchLitCI "minute".toList s with
        | some r => some (false, r)
        | none => none

/-- Consume one optional trailing letter s (case-insensitively). -/
def eatOptS : List Char → List Char
  | [] => []
  | c :: cs => if c.toLower == 's' then cs else c :: cs

/-- Head match of the full duration pattern: digits, optional whitespace, a
unit, an optional s. Returns the parsed value, the hour flag and the
remaining text. -/
def matchDurationAt (s : List Char) : Option (ℕ × Bool × List Char) :=
  let p := takeDigits s
  if p.1.isEmpty then none
  else
    match matchUnit (p.2.dropWhile isWsChar) with
    | some (isH, r) => some (digitsVal 0 p.1, isH, eatOptS r)
    | none => none

/-- Leftmost match of the duration pattern anywhere in the line. -/
def findDuration : List Char → Option (ℕ × Bool)
  | [] => none
  | c :: cs =>
    match matchDurationAt (c :: cs) with
    | some (v, isH, _) => some (v, isH)
    | none => findDuration cs

/-- Head match of the duration pattern for cleaning: remaining text only. -/
def matchDurationClean (s : List Char) : Option (List Char) :=
  (matchDurationAt s).map fun r => r.2.2

/-- Kind of the first alternative matched by the deadline pattern. -/
inductive DlKind where
  | today
  | tomorrow
  | other
deriving DecidableEq, Repr

/-- A run of one or more word characters; fails on zero. -/
def takeWordTail (s : List Char) : Option (List Char) :=
  match s with
  | [] => none
  | c :: cs => if isWordChar c then some (cs.dropWhile isWordChar) else none

/-- Head match of the deadline alternation today, tomorrow, by word, due
word (in source order). Returns the kind and the remaining text. -/
def matchDeadlineAt (s : List Char) : Option (DlKind × List Char) :=
  match matchLitCI "today".toList s with
  | some r => some (.today, r)
  | none =>
    match matchLitCI "tomorrow".toList s with
    | some r => some (.tomorrow, r)
    | none =>
      match matchLitCI "by ".toList s with
      | some r =>
        match takeWordTail r with
        | some r2 => some (.other, r2)
        | none =>
          match matchLitCI "due ".toList s with
          | some r3 => (takeWordTail r3).map fun r4 => (.other, r4)
          | none => none
      | none =>
        match matchLitCI "due ".toList s with
        | some r3 => (takeWordTail r3).map fun r4 => (.other, r4)
        | none => none

/-- Leftmost match of the deadline pattern anywhere in the line. -/
def findDeadline : List Char → Option DlKind
  | [] => none
  | c :: cs =>
    match matchDeadlineAt (c :: cs) with
    | some (k, _) => some k
    | none => findDeadline cs

/-- Head match of the deadline pattern for cleaning: remaining text only. -/
def matchDeadlineClean (s : List Char) : Option (List Char) :=
  (matchDeadlineAt s).map fun r => r.2

/-- Global replace-by-empty of a head matcher, fuelled by the input length;
every matcher used here consumes at least one character, so the fuel never
runs out on the paths that occur. -/
def replaceAllAux (m : List Char → Option (List Char)) : ℕ → List Char → List Char
  | 0, s => s
  | _ + 1, [] => []
  | fuel + 1, c :: cs =>
    match m (c :: cs) with
    | some rest => replaceAllAux m fuel rest
    | none => c :: replaceAllAux m fuel cs

/-- Global removal of all matches of a head matcher, scanning left to
right. -/
def replaceAll (m : List Char → Option (List Char)) (s : List Char) : List Char :=
  replaceAllAux m s.length s

/-- Collapse every whitespace run to a single space, as the global
whitespace replace does. -/
def collapseWsAux : Bool → List Char → List Char
  | _, [] => []
  | prevWs, c :: cs =>
    if isWsChar c then
      if prevWs then collapseWsAux true cs else ' ' :: collapseWsAux true cs
    else c :: collapseWsAux false cs

/-- Strip leading and trailing whitespace. -/
def trimChars (s : List Char) : List Char :=
  ((s.dropWhile isWsChar).reverse.dropWhile isWsChar).reverse

/-- String-level trim. -/
def trimStr (s : String) : String :=
  String.mk (trimChars s.toList)

/-- The cleaned title of a line: strip priority keywords, duration
patterns and deadline patterns, collapse whitespace, trim. -/
def cleanChars (s : List Char) : List Char :=
  trimChars (collapseWsAux false
    (replaceAll matchDeadlineClean (replaceAll matchDurationClean (replaceAll matchKwClean s))))

/-- String-level cleaned title. -/
def cleanTitleStr (line : String) : String :=
  String.mk (cleanChars line.toList)

/-! ### GeminiService local heuristic parsing -/

/-- GeminiService.generateConditionalHints. -/
def generateConditionalHints (priority : ℚ) (duration : ℚ) : List String :=
  (if priority ≥ 4 then
    ["If priority drops to medium, this task will be rescheduled after other high-priority items."]
   else []) ++
  (if duration > 90 then
    ["This task may be split into smaller blocks if schedule is tight."]
   else []) ++
  (if priority ≤ 2 then
    ["This task will be scheduled in available time slots after higher priority work."]
   else [])

/-- GeminiService.parseTaskLine. The random task identifier and the 17:00
end-of-day timestamps for today and tomorrow are parameters of the
embedding. Returns none exactly when the cleaned title is empty. -/
def parseTaskLine (taskId : String) (todayEOD tomorrowEOD : ℤ)
    (line : String) : Option InferredTask :=
  let chars := line.toList
  let priorityInfo : ℚ × InferenceConfidence × String :=
    if testCI line ["urgent", "asap", "critical", "!!!"] then
      (5, .high, "Detected urgency keywords")
    else if testCI line ["important", "high", "!!"] then
      (4, .medium, "Detected importance keywords")
    else if testCI line ["low", "minor", "when time"] then
      (2, .medium, "Detected low priority indicators")
    else
      (3, .low, "Assumed medium priority (no indicators found)")
  let durationInfo : ℚ × InferenceConfidence × String :=
    match findDuration chars with
    | some (v, isH) =>
      ((if isH then (v : ℚ) * 60 else (v : ℚ)), .high, "Extracted from text")
    | none =>
      if line.length > 100 ∨ testCI line ["research", "analyze", "develop", "create"] then
        (120, .low, "Estimated based on task complexity")
      else if line.length > 50 ∨ testCI line ["write", "review", "plan"] then
        (60, .low, "Estimated based on task type")
      else
        (30, .low, "Default estimate for simple tasks")
  let deadlineInfo : Option (ℤ × InferenceConfidence × String) :=
    match findDeadline chars with
    | some .today => some (todayEOD, .high, "Due today by end of work day")
    | some .tomorrow => some (tomorrowEOD, .high, "Due tomorrow by end of work day")
    | _ => none
  let title := cleanTitleStr line
  if title = "" then none
  else some
    { id := taskId
      title := title
      deadline := deadlineInfo.map fun d => d.1
      priority := some priorityInfo.1
      duration := some durationInfo.1
      dependencies := none
      notes := none
      category := none
      splittable := none
      inferences :=
        { priority := some ⟨priorityInfo.1, priorityInfo.2.1, priorityInfo.2.2⟩
          duration := some ⟨durationInfo.1, durationInfo.2.1, durationInfo.2.2⟩
          deadline := deadlineInfo.map fun d => ⟨some d.1, d.2.1, d.2.2⟩
          category := none }
      conditionalHints := generateConditionalHints priorityInfo.1 durationInfo.1 }

/-- Split text into lines at newline characters, keeping empty segments as
the JavaScript split does. -/
def splitLinesAux : List Char → List Char → List (List Char)
  | [], cur => [cur.reverse]
  | c :: rest, cur =>
    if c == '\n' then cur.reverse :: splitLinesAux rest []
    else splitLinesAux rest (c :: cur)

/-- The line list processed by mockGeminiParsing: split at newlines, keep
lines whose trim is non-empty. -/
def mockLines (text : String) : List String :=
  ((splitLinesAux text.toList []).map fun l => String.mk l).filter fun l => trimStr l ≠ ""

/-- The extraction loop of mockGeminiParsing: each trimmed line either
yields a task or is pushed onto the ambiguous list. -/
def mockLoop (idOf : ℕ → String) (todayEOD tomorrowEOD : ℤ) :
    ℕ → List String → List InferredTask × List String
  | _, [] => ([], [])
  | i, line :: rest =>
    let trimmed := trimStr line
    if trimmed = "" then mockLoop idOf todayEOD tomorrowEOD (i + 1) rest
    else
      match parseTaskLine (idOf i) todayEOD tomorrowEOD trimmed with
      | some t =>
        let p := mockLoop idOf todayEOD tomorrowEOD (i + 1) rest
        (t :: p.1, p.2)
      | none =>
        let p := mockLoop idOf todayEOD tomorrowEOD (i + 1) rest
        (p.1, trimmed :: p.2)

/-- GeminiService.mockGeminiParsing: the local heuristic parsing strategy. -/
def mockGeminiParsing (idOf : ℕ → String) (todayEOD tomorrowEOD : ℤ)
    (text : String) : FreeformParseResult :=
  let p := mockLoop idOf todayEOD tomorrowEOD 0 (mockLines text)
  { extractedTasks := p.1
    ambiguousLines := p.2
    parsingErrors := []
    confidence := if p.1.length > 0 then .medium else .low }

/-! ### GeminiService field inference -/

/-- GeminiService.mockFieldInference: infer priority and duration when the
corresponding field of the structured task is falsy. -/
def mockFieldInference (task : StructuredTask) (now : ℤ) : InferredTask :=
  let priorityMissing : Bool :=
    match task.priority with
    | none => true
    | some x => decide (x = 0)
  let durationMissing : Bool :=
    match task.duration with
    | none => true
    | some x => decide (x = 0)
  let infPriority : Option (Inference ℚ) :=
    if priorityMissing then
      some (match task.deadline with
        | some dl =>
          let hoursUntilDeadline : ℚ := ((dl - now : ℤ) : ℚ) / (1000 * 60 * 60)
          if hoursUntilDeadline < 24 then
            ⟨5, .high, "High priority due to approaching deadline"⟩
          else if hoursUntilDeadline < 72 then
            ⟨4, .medium, "Medium-high priority due to deadline in 3 days"⟩
          else ⟨3, .medium, "Default medium priority"⟩
        | none => ⟨3, .medium, "Default medium priority"⟩)
    else none
  let infDuration : Option (Inference ℚ) :=
    if durationMissing then
      some (if task.title.length > 50 ∨
          testCI task.title ["research", "analyze", "develop", "design", "create", "build"] then
        ⟨120, .medium, "Estimated 2 hours based on task complexity"⟩
      else if task.title.length < 20 ∧
          testCI task.title ["check", "review", "send", "call", "email"] then
        ⟨30, .medium, "Estimated 30 minutes for quick task"⟩
      else ⟨60, .low, "Default 1-hour estimate"⟩)
    else none
  { toStructuredTask := task
    inferences :=
      { priority := infPriority
        duration := infDuration
        deadline := none
        category := none }
    conditionalHints :=
      (if priorityMissing then
        ["If this task is actually low priority, it will be scheduled after other medium priority tasks."]
       else []) ++
      (if durationMissing then
        ["Duration estimate can be adjusted. Shorter tasks will be scheduled in available gaps."]
       else []) }

/-- GeminiService.inferTaskFields: the public wrapper around the field
inference; its catch branch is unreachable because the inference itself is
total. -/
def inferTaskFields (task : StructuredTask) (now : ℤ) : InferredTask :=
  mockFieldInference task now

/-! ### GeminiService external response validation

The payload handed to the validator is JSON.parse output typed any, so a
value sitting in a numeric position can be any JSON value. The validator
observes such a value only through its JavaScript truthiness (inside the
default operator ||) and, when truthy, through its numeric coercion inside
Math.min and Math.max. A raw numeric-position field is therefore modelled
as Option JsNum: none stands for an absent or falsy value (undefined,
null, false, 0, NaN, the empty string), and some v for a truthy value
whose numeric coercion is v - a finite rational, NaN (for a non-numeric
string, an object or an array), or an infinity (for an overflowing JSON
number literal). A value in a date position is likewise observed through
the Date constructor and modelled by the time value it yields, with nan
standing for an Invalid Date. Confidence labels are observed only through
an Array.includes test against three string literals, under which every
non-string value behaves like an invalid string, so Option String covers
the untrusted domain there. -/

/-- The numeric coercion of a truthy JavaScript value: a finite number,
NaN, or an infinity. -/
inductive JsNum where
  | num (q : ℚ)
  | nan
  | inf
  | negInf
deriving DecidableEq, Repr

/-- The default operator x || d in a numeric position: an absent or falsy
value falls back to the default, a truthy value passes through. -/
def jsOr (o : Option JsNum) (d : ℚ) : JsNum :=
  match o with
  | none => .num d
  | some v => v

/-- Math.min with a finite first argument: NaN propagates, an infinity
compares as expected. -/
def jsMin (a : ℚ) : JsNum → JsNum
  | .num q => .num (min a q)
  | .nan => .nan
  | .inf => .num a
  | .negInf => .negInf

/-- Math.max with a finite first argument: NaN propagates, an infinity
compares as expected. -/
def jsMax (a : ℚ) : JsNum → JsNum
  | .num q => .num (max a q)
  | .nan => .nan
  | .inf => .inf
  | .negInf => .num a

/-- Untrusted inference entry of an external payload (priority or
duration). -/
structure RawInference where
  value : Option JsNum
  confidence : Option String
  rationale : Option String
deriving DecidableEq, Repr

/-- Untrusted deadline inference entry of an external payload; the value is
observed through the Date constructor as a time value, nan for an Invalid
Date. -/
structure RawDeadlineInference where
  value : Option JsNum
  confidence : Option String
  rationale : Option String
deriving DecidableEq, Repr

/-- Untrusted task object of an external payload. -/
structure RawTask where
  id : Option String
  title : Option String
  duration : Option JsNum
  priority : Option JsNum
  deadline : Option JsNum
  category : Option String
  notes : Option String
  dependencies : Option (List String)
  splittable : Option Bool
  infPriority : Option RawInference
  infDuration : Option RawInference
  infDeadline : Option RawDeadlineInference
deriving DecidableEq, Repr

/-- Untrusted top-level external payload. -/
structure GeminiPayload where
  extractedTasks : Option (List RawTask)
  ambiguousLines : Option (List String)
  parsingErrors : Option (List String)
  confidence : Option String
deriving DecidableEq, Repr

/-- The string default operator x || d: a missing or empty string falls
back to the default. -/
def strOr (o : Option String) (d : String) : String :=
  match o with
  | none => d
  | some s => if s = "" then d else s

/-- Map a raw confidence label onto the enumeration, using the default when
the label is missing or not one of low, medium, high. -/
def toConf (o : Option String) (dflt : InferenceConfidence) : InferenceConfidence :=
  if o == some "low" then .low
  else if o == some "medium" then .medium
  else if o == some "high" then .high
  else dflt

/-- Is the raw confidence label one of the three valid strings? -/
def validConf (o : Option String) : Bool :=
  o == some "low" || o == some "medium" || o == some "high"

/-- The inferences object written by the validator: exactly the keys
priority, duration and deadline, each possibly undefined, with values in
the runtime number domain. -/
structure GeminiInferences where
  priority : Option (Inference JsNum)
  duration : Option (Inference JsNum)
  deadline : Option (Inference (Option JsNum))
deriving DecidableEq, Repr

/-- The task object built at runtime by the validation step. Its shape
mirrors InferredTask, but the numeric fields live in the runtime number
domain JsNum, because the clamp expressions propagate NaN when the
untrusted value is a truthy non-number; the InferredTask annotation of the
source is not sound at runtime. -/
structure GeminiTask where
  id : String
  title : String
  deadline : Option JsNum
  priority : Option JsNum
  duration : Option JsNum
  dependencies : Option (List String)
  notes : Option String
  category : Option String
  splittable : Option Bool
  inferences : GeminiInferences
  conditionalHints : List String
deriving DecidableEq, Repr

/-- The parse result built from an external response: the runtime
counterpart of FreeformParseResult. -/
structure GeminiParseResult where
  extractedTasks : List GeminiTask
  ambiguousLines : List String
  parsingErrors : List String
  confidence : InferenceConfidence
deriving DecidableEq, Repr

/-- The per-task validation step of
GeminiService.validateAndTransformGeminiResponse: apply
Math.max(lo, Math.min(hi, x || d)) to priority and the durations, default
missing or invalid confidence labels, and default every other field. -/
def validateGeminiTask (now : ℤ) (index : ℕ) (task : RawTask) : GeminiTask :=
  { id := strOr task.id ("task-" ++ toString now ++ "-" ++ toString index)
    title := strOr task.title "Untitled Task"
    duration := some (jsMax 15 (jsMin 240 (jsOr task.duration 60)))
    priority := some (jsMax 1 (jsMin 5 (jsOr task.priority 3)))
    deadline := task.deadline
    category := task.category
    notes := task.notes
    dependencies := some (task.dependencies.getD [])
    splittable := some (task.splittable.getD false)
    inferences :=
      { priority := task.infPriority.map fun ri =>
          ⟨jsMax 1 (jsMin 5 (jsOr ri.value 3)), toConf ri.confidence .medium,
            strOr ri.rationale "Inferred from context"⟩
        duration := task.infDuration.map fun ri =>
          ⟨jsMax 15 (jsMin 240 (jsOr ri.value 60)), toConf ri.confidence .medium,
            strOr ri.rationale "Estimated based on task complexity"⟩
        deadline := task.infDeadline.map fun ri =>
          ⟨ri.value, toConf ri.confidence .low,
            strOr ri.rationale "Inferred from context clues"⟩ }
    conditionalHints := [] }

/-- GeminiService.validateAndTransformGeminiResponse. -/
def validateAndTransformGeminiResponse (now : ℤ) (response : GeminiPayload) :
    GeminiParseResult :=
  { extractedTasks := (response.extractedTasks.getD []).mapIdx fun i t =>
      validateGeminiTask now i t
    ambiguousLines := response.ambiguousLines.getD []
    parsingErrors := response.parsingErrors.getD []
    confidence := toConf response.confidence .medium }

/-! ### GeminiService parse entry point -/

/-- The inclusion of a well-typed inference entry into the runtime number
domain. -/
def toJsInference (i : Inference ℚ) : Inference JsNum :=
  ⟨.num i.value, i.confidence, i.rationale⟩

/-- The inclusion of a well-typed deadline inference entry into the runtime
number domain. -/
def toJsDateInference (i : Inference (Option ℤ)) : Inference (Option JsNum) :=
  ⟨i.value.map fun z => .num (z : ℚ), i.confidence, i.rationale⟩

/-- The inclusion of a well-typed task into the runtime task domain: every
number is a finite JsNum. At runtime this is the identity - the objects
built by the local parser already live in the common domain. -/
def toJsTask (t : InferredTask) : GeminiTask :=
  { id := t.id
    title := t.title
    deadline := t.deadline.map fun z => .num (z : ℚ)
    priority := t.priority.map .num
    duration := t.duration.map .num
    dependencies := t.dependencies
    notes := t.notes
    category := t.category
    splittable := t.splittable
    inferences :=
      ⟨t.inferences.priority.map toJsInference, t.inferences.duration.map toJsInference,
        t.inferences.deadline.map toJsDateInference⟩
    conditionalHints := t.conditionalHints }

/-- The inclusion of a local parse result into the runtime result domain. -/
def toJsResult (r : FreeformParseResult) : GeminiParseResult :=
  { extractedTasks := r.extractedTasks.map toJsTask
    ambiguousLines := r.ambiguousLines
    parsingErrors := r.parsingErrors
    confidence := r.confidence }

/-- GeminiService.realGeminiParsing. The network call, response decoding
and JSON parsing are modelled by the response argument: an error stands for
any failure of that phase (no usable response, malformed JSON, non-success
status) and is re-thrown to the caller, a success carries the decoded
payload which is then validated. -/
def realGeminiParsing (now : ℤ) (response : Except String GeminiPayload) :
    Except String GeminiParseResult :=
  match response with
  | .error e => .error e
  | .ok payload => .ok (validateAndTransformGeminiResponse now payload)

/-- GeminiService.parseFreeformTasks: delegate to the external strategy
when an API key is configured, catching any failure and falling back to the
local heuristic strategy; without a key, parse locally. Results live in the
runtime domain; the local results enter it through the inclusion
toJsResult, which at runtime is the identity. -/
def parseFreeformTasks (apiKey : Option String) (now : ℤ)
    (response : Except String GeminiPayload) (idOf : ℕ → String)
    (todayEOD tomorrowEOD : ℤ) (text : String) :
    Except String GeminiParseResult :=
  match apiKey with
  | some _ =>
    match realGeminiParsing now response with
    | .ok r => .ok r
    | .error _ => .ok (toJsResult (mockGeminiParsing idOf todayEOD tomorrowEOD text))
  | none => .ok (toJsResult (mockGeminiParsing idOf todayEOD tomorrowEOD text))

/-! ### Auxiliary definitions for the statements of the properties -/

/-- The categorization test for the now section: urgency above 0.8 or total
above 0.8. -/
def inNowSection (pt : PlannedTask) : Bool :=
  decide (pt.priorityScore.urgency > 8/10 ∨ pt.priorityScore.total > 8/10)

/-- The categorization test for the next section: not in now, total above
0.5. -/
def inNextSection (pt : PlannedTask) : Bool :=
  !inNowSection pt && decide (pt.priorityScore.total > 1/2)

/-- The categorization test for the later section: neither of the above. -/
def inLaterSection (pt : PlannedTask) : Bool :=
  !inNowSection pt && !decide (pt.priorityScore.total > 1/2)

/-- Names of the four possible inference entries. -/
inductive InfField where
  | priority
  | duration
  | deadline
  | category
deriving DecidableEq, Repr

/-- The confidence label of the named entry of an inferences map, when the
entry is populated. -/
def confidenceAt (m : Inferences) : InfField → Option InferenceConfidence
  | .priority => m.priority.map fun i => i.confidence
  | .duration => m.duration.map fun i => i.confidence
  | .deadline => m.deadline.map fun i => i.confidence
  | .category => m.category.map fun i => i.confidence

/-- Replace the confidence label of the named entry of an inferences map,
leaving everything else unchanged. -/
def setConfidenceAt (m : Inferences) (f : InfField) (c : InferenceConfidence) : Inferences :=
  match f with
  | .priority => { m with priority := m.priority.map fun i => { i with confidence := c } }
  | .duration => { m with duration := m.duration.map fun i => { i with confidence := c } }
  | .deadline => { m with deadline := m.deadline.map fun i => { i with confidence := c } }
  | .category => { m with category := m.category.map fun i => { i with confidence := c } }

/-- Replace the confidence label of one inference entry of a task. -/
def InferredTask.setConfidence (t : InferredTask) (f : InfField)
    (c : InferenceConfidence) : InferredTask :=
  { t with inferences := setConfidenceAt t.inferences f c }

/-- One downward step of a confidence label along high, medium, low. -/
inductive ConfStep : InferenceConfidence → InferenceConfidence → Prop where
  | highMedium : ConfStep .high .medium
  | mediumLow : ConfStep .medium .low

/-- A fixed settings value used to instantiate the properties on concrete
inputs. -/
def settings0 : PlanningSettings :=
  ⟨"09:00", "17:00", false, 90, 15, []⟩

/-- A concrete task with one high-confidence inference entry. -/
def task5 : InferredTask :=
  { id := "a"
    title := "t"
    deadline := none
    priority := none
    duration := none
    dependencies := none
    notes := none
    category := none
    splittable := none
    inferences := ⟨some ⟨3, .high, "r"⟩, none, none, none⟩
    conditionalHints := [] }

/-- A concrete task with a deadline in the past relative to instant 0. -/
def taskPast : InferredTask :=
  { id := "p"
    title := "t"
    deadline := some (-1)
    priority := none
    duration := none
    dependencies := none
    notes := none
    category := none
    splittable := none
    inferences := ⟨none, none, none, none⟩
    conditionalHints := [] }

/-- A concrete structured task with no explicit priority or duration. -/
def task9 : StructuredTask :=
  ⟨"s", "do taxes", none, none, none, none, none, none, none⟩

/-- A concrete untrusted payload task whose duration and priority are
truthy non-numeric values - for example the string two hours and an empty
object - whose numeric coercion is NaN. -/
def rawNaN : RawTask :=
  { id := none
    title := some "t"
    duration := some .nan
    priority := some .nan
    deadline := none
    category := none
    notes := none
    dependencies := none
    splittable := none
    infPriority := none
    infDuration := none
    infDeadline := none }

/-- A concrete untrusted payload carrying the task above. -/
def payloadNaN : GeminiPayload :=
  ⟨some [rawNaN], none, none, none⟩

/-! ## Helper lemmas -/

/-- The total score unfolds to the clamped weighted formula. -/
theorem total_eq (task : InferredTask) (settings : PlanningSettings) (planDate now : ℤ) :
    (calculatePriorityScore task settings planDate now).total =
      max 0 (urgencyOf task now * (3/10) + importanceOf task * (1/4) + 1 * (3/20) +
        1 * (3/20) + 1 * (3/20) - penaltyOf task) := rfl

/-- Updating a confidence label does not change the urgency factor. -/
theorem setConfidence_urgency (t : InferredTask) (f : InfField) (c : InferenceConfidence)
    (now : ℤ) : urgencyOf (t.setConfidence f c) now = urgencyOf t now := rfl

/-- Updating a confidence label does not change the importance factor. -/
theorem setConfidence_importance (t : InferredTask) (f : InfField) (c : InferenceConfidence) :
    importanceOf (t.setConfidence f c) = importanceOf t := rfl

/-- A confidence step downward never decreases the penalty of a label. -/
theorem pen_le_of_step {c c' : InferenceConfidence} (h : ConfStep c c') : pen c ≤ pen c' := by
  cases h <;> norm_num [pen]

/-- Lowering the confidence of one populated entry never decreases the
summed uncertainty penalty. -/
theorem setConfidence_penalty (t : InferredTask) (f : InfField) (c c' : InferenceConfidence)
    (h : confidenceAt t.inferences f = some c) (hle : pen c ≤ pen c') :
    penaltyOf t ≤ penaltyOf (t.setConfidence f c') := by
  cases f
  case priority =>
    cases hi : t.inferences.priority with
    | none => simp [confidenceAt, hi] at h
    | some i =>
      simp only [confidenceAt, hi, Option.map_some', Option.some.injEq] at h
      simp only [penaltyOf, InferredTask.setConfidence, setConfidenceAt, hi, confPenalty,
        Option.map_some']
      subst h
      linarith
  case duration =>
    cases hi : t.inferences.duration with
    | none => simp [confidenceAt, hi] at h
    | some i =>
      simp only [confidenceAt, hi, Option.map_some', Option.some.injEq] at h
      simp only [penaltyOf, InferredTask.setConfidence, setConfidenceAt, hi, confPenalty,
        Option.map_some']
      subst h
      linarith
  case deadline =>
    cases hi : t.inferences.deadline with
    | none => simp [confidenceAt, hi] at h
    | some i =>
      simp only [confidenceAt, hi, Option.map_some', Option.some.injEq] at h
      simp only [penaltyOf, InferredTask.setConfidence, setConfidenceAt, hi, confPenalty,
        Option.map_some']
      subst h
      linarith
  case category =>
    cases hi : t.inferences.category with
    | none => simp [confidenceAt, hi] at h
    | some i =>
      simp only [confidenceAt, hi, Option.map_some', Option.some.injEq] at h
      simp only [penaltyOf, InferredTask.setConfidence, setConfidenceAt, hi, confPenalty,
        Option.map_some']
      subst h
      linarith

/-! ## Properties of the scoring algorithm -/

/-- Claim C2 (counterexample to the stated claim): there is no input at all
on which the total score is negative, in particular none where the summed
uncertainty penalty exceeds the weighted base and the total is negative,
because the source clamps the total at 0 with an explicit maximum. -/
theorem C2_counterexample :
    ¬ ∃ (task : InferredTask) (settings : PlanningSettings) (planDate now : ℤ),
      penaltyOf task > urgencyOf task now * (3/10) + importanceOf task * (1/4) +
        1 * (3/20) + 1 * (3/20) + 1 * (3/20) ∧
      (calculatePriorityScore task settings planDate now).total < 0 := by
  rintro ⟨task, settings, planDate, now, -, hneg⟩
  rw [total_eq] at hneg
  exact absurd hneg (not_lt.mpr (le_max_left 0 _))

/-- Claim C2 (amended): the total score equals the weighted sum
0.30 urgency + 0.25 importance + 0.15 effortFit + 0.15 dependencyReady +
0.15 slackRisk minus the uncertainty penalty, explicitly clamped below at
0 by the source, so the total is never negative. -/
theorem C2_total_clamped (task : InferredTask) (settings : PlanningSettings)
    (planDate now : ℤ) :
    (calculatePriorityScore task settings planDate now).total =
      max 0 ((calculatePriorityScore task settings planDate now).urgency * (3/10) +
        (calculatePriorityScore task settings planDate now).importance * (1/4) +
        (calculatePriorityScore task settings planDate now).effortFit * (3/20) +
        (calculatePriorityScore task settings planDate now).dependencyReady * (3/20) +
        (calculatePriorityScore task settings planDate now).slackRisk * (3/20) -
        (calculatePriorityScore task settings planDate now).uncertaintyPenalty) ∧
    0 ≤ (calculatePriorityScore task settings planDate now).total :=
  ⟨rfl, le_max_left 0 _⟩

/-- Claim C5: lowering the confidence label of one populated inference
entry one step along high, medium, low, holding everything else fixed,
never increases the total priority score. -/
theorem C5_confidence_monotone (task : InferredTask) (settings : PlanningSettings)
    (planDate now : ℤ) (f : InfField) (c c' : InferenceConfidence)
    (h : confidenceAt task.inferences f = some c) (hstep : ConfStep c c') :
    (calculatePriorityScore (task.setConfidence f c') settings planDate now).total ≤
      (calculatePriorityScore task settings planDate now).total := by
  have hpen := setConfidence_penalty task f c c' h (pen_le_of_step hstep)
  rw [total_eq, total_eq, setConfidence_urgency, setConfidence_importance]
  exact max_le_max le_rfl (by linarith)

/-- Witness for C5 at a concrete task: lowering the high-confidence
priority entry of task5 to medium does not increase the total. -/
theorem C5_witness :
    (calculatePriorityScore (task5.setConfidence .priority .medium) settings0 0 0).total ≤
      (calculatePriorityScore task5 settings0 0 0).total :=
  C5_confidence_monotone task5 settings0 0 0 .priority .high .medium rfl .highMedium

/-- Claim C10: with the wall clock fixed, the plan date argument influences
only the id and date fields of the generated plan; sections (hence scores
and scheduling reasons), overdue tasks, ambiguous tasks and metadata are
identical across different plan dates. -/
theorem C10_planDate_invariance (tasks : List InferredTask) (settings : PlanningSettings)
    (now d1 d2 : ℤ) :
    (generateDailyPlan tasks settings d1 now).sections =
      (generateDailyPlan tasks settings d2 now).sections ∧
    (generateDailyPlan tasks settings d1 now).overdueTasks =
      (generateDailyPlan tasks settings d2 now).overdueTasks ∧
    (generateDailyPlan tasks settings d1 now).ambiguousTasks =
      (generateDailyPlan tasks settings d2 now).ambiguousTasks ∧
    (generateDailyPlan tasks settings d1 now).metadata =
      (generateDailyPlan tasks settings d2 now).metadata :=
  ⟨rfl, rfl, rfl, rfl⟩

/-! ## Properties of the parser entry point and the field inference -/

/-- Claim C7: when the external strategy fails, parseFreeformTasks returns
the local heuristic result on the same text (carried into the common
runtime domain by the inclusion toJsResult, the identity at runtime), and
the parse never surfaces an exception whatever the configuration and the
external outcome. -/
theorem C7_fallback (k e : String) (now : ℤ) (idOf : ℕ → String)
    (todayEOD tomorrowEOD : ℤ) (text : String) :
    parseFreeformTasks (some k) now (.error e) idOf todayEOD tomorrowEOD text =
      .ok (toJsResult (mockGeminiParsing idOf todayEOD tomorrowEOD text)) ∧
    ∀ (apiKey : Option String) (response : Except String GeminiPayload),
      (parseFreeformTasks apiKey now response idOf todayEOD tomorrowEOD text).isOk = true := by
  refine ⟨rfl, fun apiKey response => ?_⟩
  cases apiKey with
  | none => rfl
  | some _ => cases response with
    | ok payload => rfl
    | error err => rfl

/-- Claim C9: the field inference carries every explicit field of the
structured task through unchanged; inferred priority and duration live only
in the inferences map, so a task whose priority was only inferred still has
no top-level priority and is scored with the default importance 0.6. -/
theorem C9_inference_frame (task : StructuredTask) (now : ℤ) :
    (inferTaskFields task now).toStructuredTask = task ∧
    (task.priority = none →
      (inferTaskFields task now).priority = none ∧
      ∀ (settings : PlanningSettings) (planDate now2 : ℤ),
        (calculatePriorityScore (inferTaskFields task now) settings planDate now2).importance
          = 3/5) := by
  refine ⟨rfl, fun h => ⟨h, fun settings planDate now2 => ?_⟩⟩
  show importanceOf (inferTaskFields task now) = 3/5
  unfold importanceOf
  rw [show (inferTaskFields task now).priority = task.priority from rfl, h]

/-- Witness for C9 at a concrete task with no explicit priority. -/
theorem C9_witness :
    (inferTaskFields task9 0).toStructuredTask = task9 ∧
    (inferTaskFields task9 0).priority = none ∧
    (calculatePriorityScore (inferTaskFields task9 0) settings0 0 0).importance = 3/5 := by
  obtain ⟨h1, h2⟩ := C9_inference_frame task9 0
  obtain ⟨h3, h4⟩ := h2 rfl
  exact ⟨h1, h3, h4 settings0 0 0⟩

/-! ## Properties of the external-response validation -/

/-- Claim C8 (the code violates the claim): on the concrete hostile payload
payloadNaN, whose task carries truthy non-numeric duration and priority
values (numeric coercion NaN), the validation step constructs a task whose
duration and priority are NaN - not finite numbers at all, hence not
clamped into [15,240] or [1,5] - because Math.min and Math.max propagate
NaN and the validator never type-checks the numeric fields. -/
theorem C8_nan_escape :
    (validateGeminiTask 0 0 rawNaN).duration = some JsNum.nan ∧
    (validateGeminiTask 0 0 rawNaN).priority = some JsNum.nan ∧
    (validateAndTransformGeminiResponse 0 payloadNaN).extractedTasks
      = [validateGeminiTask 0 0 rawNaN] ∧
    (¬ ∃ q : ℚ, (validateGeminiTask 0 0 rawNaN).duration = some (JsNum.num q)) ∧
    (¬ ∃ q : ℚ, (validateGeminiTask 0 0 rawNaN).priority = some (JsNum.num q)) := by
  refine ⟨rfl, rfl, ?_, ?_, ?_⟩
  · simp [validateAndTransformGeminiResponse, payloadNaN]
  · rintro ⟨q, hq⟩
    exact JsNum.noConfusion (Option.some.inj hq)
  · rintro ⟨q, hq⟩
    exact JsNum.noConfusion (Option.some.inj hq)

/-! ## Properties of categorization and plan assembly -/

/-- The categorization fold, started from arbitrary accumulated sections,
appends exactly the three filters of the remaining list. -/
theorem categorize_foldl (l : List PlannedTask) (a b c : List PlannedTask) :
    l.foldl categorizeStep ⟨a, b, c⟩ =
      ⟨a ++ l.filter inNowSection, b ++ l.filter inNextSection,
        c ++ l.filter inLaterSection⟩ := by
  induction l generalizing a b c with
  | nil => simp
  | cons x l ih =>
    by_cases hnow : x.priorityScore.urgency > 8/10 ∨ x.priorityScore.total > 8/10
    · have h1 : inNowSection x = true := decide_eq_true hnow
      have h2 : inNextSection x = false := by
        simp only [inNextSection, h1, Bool.not_true, Bool.false_and]
      have h3 : inLaterSection x = false := by
        simp only [inLaterSection, h1, Bool.not_true, Bool.false_and]
      simp only [List.foldl_cons, categorizeStep, if_pos hnow, ih,
        List.filter_cons, h1, h2, h3]
      simp [List.append_assoc]
    · have h1 : inNowSection x = false := decide_eq_false hnow
      by_cases htot : x.priorityScore.total > 1/2
      · have hb : decide (x.priorityScore.total > 1/2) = true := decide_eq_true htot
        have h2 : inNextSection x = true := by
          simp only [inNextSection, h1, Bool.not_false, Bool.true_and]; exact hb
        have h3 : inLaterSection x = false := by
          simp only [inLaterSection, h1, Bool.not_false, Bool.true_and, hb, Bool.not_true]
        simp only [List.foldl_cons, categorizeStep, if_neg hnow, if_pos htot, ih,
          List.filter_cons, h1, h2, h3]
        simp [List.append_assoc]
      · have hb : decide (x.priorityScore.total > 1/2) = false := decide_eq_false htot
        have h2 : inNextSection x = false := by
          simp only [inNextSection, h1, Bool.not_false, Bool.true_and]; exact hb
        have h3 : inLaterSection x = true := by
          simp only [inLaterSection, h1, Bool.not_false, Bool.true_and, hb, Bool.not_false]
        simp only [List.foldl_cons, categorizeStep, if_neg hnow, if_neg htot, ih,
          List.filter_cons, h1, h2, h3]
        simp [List.append_assoc]

/-- SchedulingService.categorizeTasks computes exactly the three filters of
the planned task list. -/
theorem categorizeTasks_eq (l : List PlannedTask) (planDate : ℤ)
    (settings : PlanningSettings) :
    categorizeTasks l planDate settings =
      ⟨l.filter inNowSection, l.filter inNextSection, l.filter inLaterSection⟩ := by
  unfold categorizeTasks
  simpa using categorize_foldl l [] [] []

/-- The three section tests are mutually exclusive and exhaustive, so the
concatenation of the three filters is a permutation of the list. -/
theorem sections_filter_perm (l : List PlannedTask) :
    (l.filter inNowSection ++ l.filter inNextSection ++ l.filter inLaterSection).Perm l := by
  induction l with
  | nil => simp
  | cons x l ih =>
    have ih' : (l.filter inNowSection ++ (l.filter inNextSection ++
        l.filter inLaterSection)).Perm l := by
      simpa [List.append_assoc] using ih
    by_cases h1 : inNowSection x = true
    · have h2 : inNextSection x = false := by
        simp only [inNextSection, h1, Bool.not_true, Bool.false_and]
      have h3 : inLaterSection x = false := by
        simp only [inLaterSection, h1, Bool.not_true, Bool.false_and]
      simpa [List.filter_cons, h1, h2, h3] using ih.cons x
    · have h1' : inNowSection x = false := by simpa using h1
      by_cases ht : (decide (x.priorityScore.total > 1/2)) = true
      · have h2 : inNextSection x = true := by
          simp only [inNextSection, h1', Bool.not_false, Bool.true_and]; exact ht
        have h3 : inLaterSection x = false := by
          simp only [inLaterSection, h1', Bool.not_false, Bool.true_and, ht, Bool.not_true]
        simp only [List.filter_cons, h1', h2, h3, if_true, if_false, Bool.false_eq_true]
        rw [List.append_assoc, List.cons_append]
        exact List.perm_middle.trans (ih'.cons x)
      · have ht' : (decide (x.priorityScore.total > 1/2)) = false := by simpa using ht
        have h2 : inNextSection x = false := by
          simp only [inNextSection, h1', Bool.not_false, Bool.true_and]; exact ht'
        have h3 : inLaterSection x = true := by
          simp only [inLaterSection, h1', Bool.not_false, Bool.true_and, ht', Bool.not_false]
        simp only [List.filter_cons, h1', h2, h3, if_true, if_false, Bool.false_eq_true]
        exact List.perm_middle.trans (ih.cons x)

/-- The tasks carried by a planning run are a permutation of the input
tasks. -/
theorem plannedTasks_map_perm (tasks : List InferredTask) (settings : PlanningSettings)
    (planDate now : ℤ) :
    ((plannedTasksOf tasks settings planDate now).map PlannedTask.task).Perm tasks := by
  have h1 : (plannedTasksOf tasks settings planDate now).map PlannedTask.task =
      (sortedScoredTasksOf tasks settings planDate now).map fun p => p.1 := by
    simp [plannedTasksOf, scheduleTasks, List.map_map, Function.comp_def, mkPlannedTask]
  rw [h1]
  have h2 : (sortedScoredTasksOf tasks settings planDate now).Perm
      (scoredTasksOf tasks settings planDate now) := List.mergeSort_perm _ _
  refine (h2.map fun p => p.1).trans ?_
  simp [scoredTasksOf, List.map_map, Function.comp_def]

/-- Claim C1: in a generated plan every input task appears in exactly one
of the three sections, and the section is determined by its score: now
exactly when urgency exceeds 0.8 or total exceeds 0.8, otherwise next
exactly when total exceeds 0.5, otherwise later. -/
theorem C1_partition (tasks : List InferredTask) (settings : PlanningSettings)
    (planDate now : ℤ) :
    (generateDailyPlan tasks settings planDate now).sections.now =
      (plannedTasksOf tasks settings planDate now).filter inNowSection ∧
    (generateDailyPlan tasks settings planDate now).sections.next =
      (plannedTasksOf tasks settings planDate now).filter inNextSection ∧
    (generateDailyPlan tasks settings planDate now).sections.later =
      (plannedTasksOf tasks settings planDate now).filter inLaterSection ∧
    (((generateDailyPlan tasks settings planDate now).sections.now ++
       (generateDailyPlan tasks settings planDate now).sections.next ++
       (generateDailyPlan tasks settings planDate now).sections.later).map
        PlannedTask.task).Perm tasks := by
  have hs : (generateDailyPlan tasks settings planDate now).sections =
      categorizeTasks (plannedTasksOf tasks settings planDate now) planDate settings := rfl
  rw [hs, categorizeTasks_eq]
  refine ⟨rfl, rfl, rfl, ?_⟩
  exact ((sections_filter_perm _).map PlannedTask.task).trans
    (plannedTasks_map_perm tasks settings planDate now)

/-- Claim C6: every input task whose deadline is strictly before the
current instant appears in the overdue list of the generated plan while
still sitting in one of the three sections, and every overdue entry has a
populated deadline strictly in the past. -/
theorem C6_overdue_inclusion (tasks : List InferredTask) (settings : PlanningSettings)
    (planDate now : ℤ) :
    (∀ t, t ∈ tasks → ∀ dl, t.deadline = some dl → dl < now →
      ∃ pt, pt.task = t ∧
        pt ∈ (generateDailyPlan tasks settings planDate now).overdueTasks ∧
        (pt ∈ (generateDailyPlan tasks settings planDate now).sections.now ∨
         pt ∈ (generateDailyPlan tasks settings planDate now).sections.next ∨
         pt ∈ (generateDailyPlan tasks settings planDate now).sections.later)) ∧
    (∀ pt, pt ∈ (generateDailyPlan tasks settings planDate now).overdueTasks →
      ∃ dl, pt.task.deadline = some dl ∧ dl < now) := by
  have hover : (generateDailyPlan tasks settings planDate now).overdueTasks =
      (plannedTasksOf tasks settings planDate now).filter (isOverdue now) := rfl
  have hs : (generateDailyPlan tasks settings planDate now).sections =
      categorizeTasks (plannedTasksOf tasks settings planDate now) planDate settings := rfl
  have hperm := plannedTasks_map_perm tasks settings planDate now
  constructor
  · intro t ht dl hdl hlt
    obtain ⟨pt, hpt, hpte⟩ := List.mem_map.mp (hperm.mem_iff.mpr ht)
    have hov : isOverdue now pt = true := by
      unfold isOverdue
      rw [show pt.task.deadline = some dl from hpte ▸ hdl]
      exact decide_eq_true hlt
    refine ⟨pt, hpte, hover ▸ List.mem_filter.mpr ⟨hpt, hov⟩, ?_⟩
    rw [hs, categorizeTasks_eq]
    by_cases hN : inNowSection pt = true
    · exact Or.inl (List.mem_filter.mpr ⟨hpt, hN⟩)
    · have hN' : inNowSection pt = false := by simpa using hN
      by_cases hX : decide (pt.priorityScore.total > 1/2) = true
      · refine Or.inr (Or.inl (List.mem_filter.mpr ⟨hpt, ?_⟩))
        simp only [inNextSection, hN', Bool.not_false, Bool.true_and]; exact hX
      · have hX' : decide (pt.priorityScore.total > 1/2) = false := by simpa using hX
        refine Or.inr (Or.inr (List.mem_filter.mpr ⟨hpt, ?_⟩))
        simp only [inLaterSection, hN', Bool.not_false, Bool.true_and, hX', Bool.not_false]
  · intro pt hpt
    rw [hover] at hpt
    have hov := (List.mem_filter.mp hpt).2
    unfold isOverdue at hov
    cases hdl : pt.task.deadline with
    | none => rw [hdl] at hov; simp at hov
    | some dl =>
      rw [hdl] at hov
      exact ⟨dl, rfl, of_decide_eq_true hov⟩

/-- Witness for C6: a concrete task with deadline one millisecond before
instant 0 is reported overdue. -/
theorem C6_witness :
    ∃ pt, pt.task = taskPast ∧
      pt ∈ (generateDailyPlan [taskPast] settings0 0 0).overdueTasks ∧
      (pt ∈ (generateDailyPlan [taskPast] settings0 0 0).sections.now ∨
       pt ∈ (generateDailyPlan [taskPast] settings0 0 0).sections.next ∨
       pt ∈ (generateDailyPlan [taskPast] settings0 0 0).sections.later) :=
  (C6_overdue_inclusion [taskPast] settings0 0 0).1 taskPast (List.mem_singleton.mpr rfl)
    (-1) rfl (by norm_num)

/-! ## Properties of the local heuristic parser -/

/-- parseTaskLine rejects a line exactly when its cleaned title is empty. -/
theorem parseTaskLine_eq_none (tid : String) (todayEOD tomorrowEOD : ℤ) (line : String) :
    parseTaskLine tid todayEOD tomorrowEOD line = none ↔ cleanTitleStr line = "" := by
  unfold parseTaskLine
  by_cases h : cleanTitleStr line = ""
  · simp [h]
  · simp [h]

/-- The ambiguous-line list produced by the extraction loop consists of the
non-empty trimmed lines whose cleaned title is empty. -/
theorem mockLoop_snd (idOf : ℕ → String) (todayEOD tomorrowEOD : ℤ)
    (ls : List String) (i : ℕ) :
    (mockLoop idOf todayEOD tomorrowEOD i ls).2 =
      (ls.map trimStr).filter fun l => decide (l ≠ "") && decide (cleanTitleStr l = "") := by
  induction ls generalizing i with
  | nil => rfl
  | cons line rest ih =>
    have hcl := parseTaskLine_eq_none (idOf i) todayEOD tomorrowEOD (trimStr line)
    by_cases h0 : trimStr line = ""
    · simp [mockLoop, h0, ih]
    · cases hp : parseTaskLine (idOf i) todayEOD tomorrowEOD (trimStr line) with
      | some t =>
        have hne : cleanTitleStr (trimStr line) ≠ "" := fun hc =>
          Option.noConfusion ((hcl.mpr hc).symm.trans hp)
        simp [mockLoop, h0, hp, ih, hne]
      | none =>
        have heq : cleanTitleStr (trimStr line) = "" := hcl.mp hp
        simp [mockLoop, h0, hp, ih, heq]

/-- Claim C3 (amended): a line whose cleaned title is empty yields no
extracted task but is not discarded silently: its trimmed form is pushed
onto the ambiguous-line list of the parse result. -/
theorem C3_empty_title_goes_ambiguous (idOf : ℕ → String) (todayEOD tomorrowEOD : ℤ)
    (text line : String) (hmem : line ∈ mockLines text)
    (hclean : cleanTitleStr (trimStr line) = "") :
    trimStr line ∈ (mockGeminiParsing idOf todayEOD tomorrowEOD text).ambiguousLines ∧
    ∀ tid, parseTaskLine tid todayEOD tomorrowEOD (trimStr line) = none := by
  have hamb : (mockGeminiParsing idOf todayEOD tomorrowEOD text).ambiguousLines =
      ((mockLines text).map trimStr).filter
        (fun l => decide (l ≠ "") && decide (cleanTitleStr l = "")) :=
    mockLoop_snd idOf todayEOD tomorrowEOD (mockLines text) 0
  constructor
  · rw [hamb]
    refine List.mem_filter.mpr ⟨List.mem_map.mpr ⟨line, hmem, rfl⟩, ?_⟩
    have hne : trimStr line ≠ "" := by
      unfold mockLines at hmem
      exact of_decide_eq_true (List.mem_filter.mp hmem).2
    simp [hne, hclean]
  · exact fun tid => (parseTaskLine_eq_none tid todayEOD tomorrowEOD (trimStr line)).mpr hclean

/-- Witness for C3 at the concrete line urgent, whose cleaned title is
empty. -/
theorem C3_witness :
    trimStr "urgent" ∈ (mockGeminiParsing (fun _ => "t") 0 0 "urgent").ambiguousLines ∧
    ∀ tid, parseTaskLine tid 0 0 (trimStr "urgent") = none :=
  C3_empty_title_goes_ambiguous (fun _ => "t") 0 0 "urgent" "urgent" (by decide) rfl

/-- Claim C3 (counterexample to the stated claim): the line urgent cleans
to an empty title, yields no extracted task, yet appears in ambiguousLines
rather than being discarded from both lists. -/
theorem C3_counterexample :
    cleanTitleStr (trimStr "urgent") = "" ∧
    (mockGeminiParsing (fun n => "task-" ++ toString n) 0 0 "urgent").extractedTasks = [] ∧
    (mockGeminiParsing (fun n => "task-" ++ toString n) 0 0 "urgent").ambiguousLines
      = ["urgent"] :=
  ⟨rfl, rfl, rfl⟩

/-- Claim C4 (amended): on a line with an explicit duration pattern the
local parser infers exactly those minutes (hours converted) with high
confidence; on every other line it uses its own fallback heuristic, which
differs from the one of the field inference engine: 120 minutes when the
line is longer than 100 characters or contains research, analyze, develop
or create; else 60 minutes when longer than 50 characters or containing
write, review or plan; else 30 minutes; always with low confidence. -/
theorem C4_duration_rule (tid : String) (todayEOD tomorrowEOD : ℤ) (line : String)
    (t : InferredTask) (h : parseTaskLine tid todayEOD tomorrowEOD line = some t) :
    ∃ e, t.inferences.duration = some e ∧
      ((∃ v isH, findDuration line.toList = some (v, isH) ∧
         e.value = (if isH then (v : ℚ) * 60 else (v : ℚ)) ∧
         e.confidence = .high) ∨
       (findDuration line.toList = none ∧ e.confidence = .low ∧
         e.value =
           (if line.length > 100 ∨ testCI line ["research", "analyze", "develop", "create"]
              then (120 : ℚ)
            else if line.length > 50 ∨ testCI line ["write", "review", "plan"] then 60
            else 30))) := by
  unfold parseTaskLine at h
  by_cases hc : cleanTitleStr line = ""
  · rw [if_pos hc] at h
    exact absurd h (by simp)
  · rw [if_neg hc] at h
    replace h := (Option.some.inj h).symm
    subst h
    cases hfd : findDuration line.toList with
    | some p =>
      obtain ⟨v, isH⟩ := p
      simp only [hfd]
      exact ⟨_, rfl, Or.inl ⟨v, isH, rfl, rfl, rfl⟩⟩
    | none =>
      simp only [hfd]
      by_cases h1 : line.length > 100 ∨ testCI line ["research", "analyze", "develop", "create"]
      · simp only [if_pos h1]
        exact ⟨_, rfl, Or.inr ⟨trivial, rfl, rfl⟩⟩
      · by_cases h2 : line.length > 50 ∨ testCI line ["write", "review", "plan"]
        · simp only [if_neg h1, if_pos h2]
          exact ⟨_, rfl, Or.inr ⟨trivial, rfl, rfl⟩⟩
        · simp only [if_neg h1, if_neg h2]
          exact ⟨_, rfl, Or.inr ⟨trivial, rfl, rfl⟩⟩

/-- Witness for C4 at the concrete line do taxes: no explicit duration
pattern, fallback value 30 with low confidence. -/
theorem C4_witness :
    ∃ t, parseTaskLine "tid" 0 0 "do taxes" = some t ∧
      ∃ e, t.inferences.duration = some e ∧
        ((∃ v isH, findDuration "do taxes".toList = some (v, isH) ∧
           e.value = (if isH then (v : ℚ) * 60 else (v : ℚ)) ∧
           e.confidence = .high) ∨
         (findDuration "do taxes".toList = none ∧ e.confidence = .low ∧
           e.value =
             (if "do taxes".length > 100 ∨
                  testCI "do taxes" ["research", "analyze", "develop", "create"]
                then (120 : ℚ)
              else if "do taxes".length > 50 ∨ testCI "do taxes" ["write", "review", "plan"]
                then 60
              else 30))) :=
  ⟨_, rfl, C4_duration_rule "tid" 0 0 "do taxes" _ rfl⟩

/-- Claim C4 (counterexample to the stated claim): on the line do taxes the
local parser infers 30 minutes while the field inference engine of the
structured path infers 60 minutes for the same title, so the two heuristics
are not the same. -/
theorem C4_counterexample :
    ((parseTaskLine "tid" 0 0 "do taxes").bind fun t =>
       t.inferences.duration.map fun e => (e.value, e.confidence)) =
      some (30, .low) ∧
    ((mockFieldInference task9 0).inferences.duration.map fun e =>
       (e.value, e.confidence)) = some (60, .low) ∧
    (30 : ℚ) ≠ 60 :=
  ⟨rfl, rfl, by norm_num⟩

end TaskMaster
